import Mathlib

/-!
Verification of the site-scanner probing-and-diffing core.

Shallow embedding, translated from the TypeScript source:
  * `computeDiff`            (client/src/lib/diff.ts)
  * `scanSite` result merge  (client/src/scanner/orchestrator.ts)
  * `fetchRobotsTxt`         (scanner/robots.ts)
  * `checkHostingProvider`   (scanner/wellKnown.ts)
  * `checkRedirectChain`     (scanner/redirectChain.ts)
  * `detectCms`              (scanner/techDetector.ts)
  * `inferHostingProvider` / `resolveDns` (scanner/dns.ts)
  * `pLimit`                 (DomainImportModal.tsx), as a labelled
    transition system over the worker/queue state.

Network and platform effects (fetch, DNS-over-HTTPS, URL resolution,
`JSON.parse` / `JSON.stringify`, wall-clock timestamps) are modelled as
explicit parameters or as executable Lean functions implementing the
relevant platform behaviour; everything else follows the source
line-by-line.
-/

namespace Scanner

/-! ## String utilities (List Char based, executable)

These model the JavaScript string primitives the source leans on:
`String.prototype.includes`, `startsWith` on a lowered string, `trim`,
maximal digit runs, and so on.  All operate on `List Char` so that
`decide` can evaluate them on concrete inputs. -/

/-- Does `hay` start with `needle`?  (JS `String.prototype.startsWith`.) -/
def startsWithL : List Char → List Char → Bool
  | [], _ => true
  | _ :: _, [] => false
  | c :: cs, d :: ds => c = d && startsWithL (c :: cs).tail (d :: ds).tail

/-- Does `needle` occur anywhere in `hay`?  (JS `String.prototype.includes`.) -/
def containsL (needle : List Char) : List Char → Bool
  | [] => startsWithL needle []
  | c :: rest => startsWithL needle (c :: rest) || containsL needle rest

/-- Substring test on `String`, the JS `hay.includes(needle)`. -/
def strContains (hay needle : String) : Bool :=
  containsL needle.toList hay.toList

/-- Lower-case a character list (JS `toLowerCase`, ASCII range). -/
def lowerL (cs : List Char) : List Char := cs.map Char.toLower

/-- JS `toLowerCase` as a `String` function (via `lowerL`, so that kernel
    evaluation on concrete inputs reduces). -/
def strToLower (s : String) : String := String.mk (lowerL s.toList)

/-- Case-insensitive substring test: JS `hay.toLowerCase().includes(needle)`
    with an already-lower-case `needle`. -/
def strContainsCI (hay needle : String) : Bool :=
  containsL needle.toList (lowerL hay.toList)

/-- The JS `\s` character class members that can actually appear in the
    scanned ASCII bodies. -/
def isJsSpace (c : Char) : Bool :=
  c = ' ' || c = '\t' || c = '\n' || c = '\r' || c = '\x0b' || c = '\x0c'

/-- Numeric value of a (non-empty) decimal digit run, as `parseFloat`
    produces for an integer capture. -/
def natOfDigits (ds : List Char) : Nat :=
  ds.foldl (fun acc c => acc * 10 + (c.toNat - '0'.toNat)) 0

/-- JS `String.prototype.trim` (whitespace stripped from both ends),
    implemented over `List Char` so concrete inputs evaluate. -/
def trimL (cs : List Char) : List Char :=
  ((cs.dropWhile isJsSpace).reverse.dropWhile isJsSpace).reverse

/-- `jsTrim s` is `s.trim()`. -/
def jsTrim (s : String) : String := String.mk (trimL s.toList)

/-- JS `String.prototype.split` at a single separator character: an empty
    string yields one empty group, and a trailing separator a trailing
    empty group. -/
def splitOnChar (sep : Char) : List Char → List (List Char)
  | [] => [[]]
  | c :: rest =>
    match splitOnChar sep rest with
    | [] => [[c]]
    | group :: groups =>
      if c = sep then [] :: group :: groups else (c :: group) :: groups

/-- `jsSplit s sep` is `s.split(sep)`. -/
def jsSplit (s : String) (sep : Char) : List String :=
  (splitOnChar sep s.toList).map String.mk

end Scanner

namespace Scanner

/-! ## WellKnownProbe — `checkHostingProvider` (scanner/wellKnown.ts)

The fetch of `/.well-known/hosting-provider` is modelled by its outcome:
`none` when the request (or URL construction) threw — the `catch` branch —
and `some (status, body)` for a settled response.  `res.ok` is
`200 <= status < 300`. -/

/-- Translation of `checkHostingProvider`: accept only a 2xx response whose
    trimmed body is non-empty, not longer than 100 characters, and free of
    the character `<`; otherwise `null`.  (The source's `text` binding for
    the trimmed body is inlined.) -/
def checkHostingProvider (resp : Option (Nat × String)) : Option String :=
  match resp with
  | none => none
  | some (status, body) =>
    if !(200 ≤ status && status < 300) then none
    else if jsTrim body = "" || (jsTrim body).length > 100 ||
        strContains (jsTrim body) "<" then none
    else some (jsTrim body)

/-! ## DnsResolver — `inferHostingProvider` / `resolveDns` (scanner/dns.ts)

The four DNS-over-HTTPS queries each degrade to an empty list on failure,
so `resolveDns` is modelled as a function of the four delivered record
lists.  The IP-range fallback regexes are implemented as executable
matchers with the exact semantics of the JS patterns (word boundary,
ordered alternation, greedy `\d+` runs). -/

/-- JS regex word character (`\w`): ASCII letter, digit, or underscore. -/
def isWordChar (c : Char) : Bool :=
  ('a' ≤ c && c ≤ 'z') || ('A' ≤ c && c ≤ 'Z') || ('0' ≤ c && c ≤ '9') || c = '_'

/-- Scan for a match of `\b` followed by `altTest` at any position.  All
    alternatives used by the source start with a digit (a word character),
    so the boundary holds exactly when the previous character is absent or
    non-word. -/
def scanWordBoundary (altTest : List Char → Bool) : Option Char → List Char → Bool
  | _, [] => false
  | prev, c :: rest =>
    ((match prev with | none => true | some p => !isWordChar p) && altTest (c :: rest))
      || scanWordBoundary altTest (some c) rest

/-- Consume a literal `.` followed by a maximal non-empty digit run; with
    regex backtracking, `\.\d+` followed by a forced `\.` or end context is
    equivalent to this deterministic reading. -/
def dotDigits : List Char → Option (List Char)
  | '.' :: rest =>
    let ds := rest.takeWhile Char.isDigit
    if ds.isEmpty then none else some (rest.drop ds.length)
  | _ => none

/-- Continuation `\.\d+\.\d+\.\d+` of the AWS IP pattern. -/
def ipTail (cs : List Char) : Bool :=
  (((dotDigits cs).bind dotDigits).bind dotDigits).isSome

/-- Test of `/\b(54|52|34|18|3)\.\d+\.\d+\.\d+/` on the joined A records. -/
def ipTestAws (s : String) : Bool :=
  scanWordBoundary
    (fun cs =>
      ["54", "52", "34", "18", "3"].any fun a =>
        startsWithL a.toList cs && ipTail (cs.drop a.length))
    none s.toList

/-- Test of a `\b(lit1|lit2|...)` regex whose alternatives are plain
    literals starting with a digit (the Azure / GCP / Cloudflare IP
    patterns). -/
def ipTestLits (lits : List String) (s : String) : Bool :=
  scanWordBoundary (fun cs => lits.any fun a => startsWithL a.toList cs) none s.toList

/-- The source's `if`-chain as an ordered rule table: one `(test, name)`
    row per `if` line, in source order.  `ns` is the space-joined,
    lower-cased NS hostnames; `ips` the space-joined A records. -/
def hostingRules (ns ips : String) : List (Bool × String) :=
  [ (strContains ns "awsdns", "Amazon Web Services (Route 53)"),
    (strContains ns "azure-dns" || strContains ns "azure.com", "Microsoft Azure"),
    (strContains ns "googledomains" || strContains ns "cloud-dns" || strContains ns "google.com", "Google Cloud"),
    (strContains ns "cloudflare", "Cloudflare"),
    (strContains ns "fastly", "Fastly"),
    (strContains ns "akam.net" || strContains ns "akamai", "Akamai"),
    (strContains ns "cloud.gov" || strContains ns "digitalgov", "GSA cloud.gov"),
    (strContains ns "dhs.gov" || strContains ns "cisa", "DHS / CISA"),
    (strContains ns ".mil", "DoD / .mil"),
    (strContains ns "automattic" || strContains ns "wordpress.com" || strContains ns "vipv2", "WordPress VIP (Automattic)"),
    (strContains ns "wpengine", "WP Engine"),
    (strContains ns "pantheon", "Pantheon"),
    (strContains ns "acquia", "Acquia"),
    (strContains ns "kinsta", "Kinsta"),
    (strContains ns "pagely", "Pagely"),
    (strContains ns "flywheel", "Flywheel"),
    (strContains ns "godaddy" || strContains ns "domaincontrol.com", "GoDaddy"),
    (strContains ns "bluehost", "Bluehost"),
    (strContains ns "siteground", "SiteGround"),
    (strContains ns "hostgator", "HostGator"),
    (strContains ns "dreamhost", "DreamHost"),
    (strContains ns "namecheap", "Namecheap"),
    (strContains ns "rackspace", "Rackspace"),
    (strContains ns "linode", "Linode / Akamai Cloud"),
    (strContains ns "digitalocean", "DigitalOcean"),
    (ipTestAws ips, "Amazon Web Services"),
    (ipTestLits ["13.107", "40.", "20.", "52.152"] ips, "Microsoft Azure"),
    (ipTestLits ["35.", "104.196.", "130.211."] ips, "Google Cloud"),
    (ipTestLits ["104.16.", "172.64.", "104.21."] ips, "Cloudflare") ]

/-- The body of `inferHostingProvider` after its two joins: the first rule
    whose test holds wins (the source's `if … else if …` cascade),
    otherwise `null`. -/
def inferFromJoined (ns ips : String) : Option String :=
  ((hostingRules ns ips).find? Prod.fst).map Prod.snd

/-- Translation of `inferHostingProvider`: joins the records as in the
    source and applies the rule chain `inferFromJoined`. -/
def inferHostingProvider (nsRecords aRecords : List String) : Option String :=
  inferFromJoined (String.intercalate " " (nsRecords.map String.toLower))
    (String.intercalate " " aRecords)

/-- Result of the four DoH record queries plus the derived fields, as
    assembled by `resolveDns`. -/
structure DnsResult where
  a_records : List String
  aaaa_records : List String
  mx_records : List String
  ns_records : List String
  ipv6 : Bool
  hosting_provider : Option String
  deriving Repr, DecidableEq

/-- Translation of `resolveDns`, parameterised by the record lists the four
    `dohQuery` calls delivered (each is `[]` when its query failed). -/
def resolveDns (aRecords aaaaRecords mxRecords nsRecords : List String) : DnsResult :=
  { a_records := aRecords
    aaaa_records := aaaaRecords
    mx_records := mxRecords
    ns_records := nsRecords
    ipv6 := aaaaRecords.length > 0
    hosting_provider := inferHostingProvider nsRecords aRecords }

/-! ## Scan result data model (shared/src/index.ts)

Wall-clock fields (`scanned_at`, `duration_ms`, hop timestamps) are
environment readings with no influence on control flow; hop timestamps are
modelled by the hop's ordinal and the two scan-level clock fields are
omitted.  `TechStackResult`'s nested enrichment payloads (`wordpress`,
`technologies`, `security_headers`, `uswds`, `dap`, `analytics`) are inert
data the orchestrator never consults and are omitted from the model. -/

structure RedirectHop where
  url : String
  status_code : Nat
  timestamp : Nat
  deriving Repr, DecidableEq

structure RedirectChainResult where
  original_url : String
  final_url : String
  was_redirected : Bool
  hops : List RedirectHop
  total_hops : Nat
  deriving Repr, DecidableEq

structure SitemapResult where
  detected : Bool
  url : String
  status_code : Nat
  page_count : Option Nat
  pdf_count : Option Nat
  filesize : Option Nat
  lastmod : Option String
  error : Option String
  deriving Repr, DecidableEq

structure RobotsResult where
  detected : Bool
  url : String
  status_code : Nat
  filesize : Option Nat
  crawl_delay : Option Nat
  sitemap_locations : Option (List String)
  error : Option String
  deriving Repr, DecidableEq

structure TechStackResult where
  cms : Option String
  web_server : Option String
  cdn : Option String
  hosting_provider : Option String
  https_enforced : Bool
  hsts : Bool
  login_gate : Bool
  deriving Repr, DecidableEq

structure ScanResult where
  domain : String
  status : String
  redirect_chain : Option RedirectChainResult
  sitemap : Option SitemapResult
  robots : Option RobotsResult
  tech_stack : Option TechStackResult
  dns : Option DnsResult
  errors : List String
  live : Option Bool
  deriving Repr, DecidableEq

/-! ## RobotsParser — `fetchRobotsTxt` (scanner/robots.ts)

The fetch outcome is `Except String (Nat × String)`: a thrown network
error with its message, or a settled `(status, body)`. -/

/-- Case-insensitive prefix test: does `cs` start with the (lower-case)
    literal `lit`?  Models a `/^lit/i` anchor. -/
def startsWithCI (lit : List Char) (cs : List Char) : Bool :=
  startsWithL lit (lowerL cs)

/-- Match of `/^crawl-delay:\s*(\d+)/i` on a trimmed line, returning the
    numeric value of the digit capture. -/
def matchCrawlDelay (s : String) : Option Nat :=
  let cs := s.toList
  if startsWithCI "crawl-delay:".toList cs then
    let ds := ((cs.drop 12).dropWhile isJsSpace).takeWhile Char.isDigit
    if ds.isEmpty then none else some (natOfDigits ds)
  else none

/-- Match of `/^sitemap:\s*(.+)/i` on a trimmed line, returning the trimmed
    capture. -/
def matchSitemap (s : String) : Option String :=
  let cs := s.toList
  if startsWithCI "sitemap:".toList cs then
    let rest := (cs.drop 8).dropWhile isJsSpace
    if rest.isEmpty then none else some (jsTrim (String.mk rest))
  else none

/-- The crawl-delay component of the line loop: each match overwrites. -/
def cdStep (cd : Option Nat) (line : String) : Option Nat :=
  match matchCrawlDelay (jsTrim line) with
  | some n => some n
  | none => cd

/-- The sitemap-location component of the line loop: each match appends. -/
def slStep (sl : List String) (line : String) : List String :=
  match matchSitemap (jsTrim line) with
  | some s => sl ++ [s]
  | none => sl

/-- One step of the source's line loop: overwrite the crawl delay on a
    `crawl-delay:` match, append on a `sitemap:` match. -/
def robotsLineStep (acc : Option Nat × List String) (line : String) :
    Option Nat × List String :=
  (cdStep acc.1 line, slStep acc.2 line)

/-- The source's trailing-slash strip: `baseUrl.replace(/\/$/, '')`. -/
def stripTrailingSlash (s : String) : String :=
  if s.endsWith "/" then s.dropRight 1 else s

/-- Translation of `fetchRobotsTxt`, parameterised by the fetch outcome for
    `<base>/robots.txt`. -/
def fetchRobotsTxt (baseUrl : String) (resp : Except String (Nat × String)) :
    RobotsResult :=
  let robotsUrl := stripTrailingSlash baseUrl ++ "/robots.txt"
  match resp with
  | Except.error e =>
    { detected := false, url := robotsUrl, status_code := 0, filesize := none,
      crawl_delay := none, sitemap_locations := none, error := some e }
  | Except.ok (status, body) =>
    if !(200 ≤ status && status < 300) then
      { detected := false, url := robotsUrl, status_code := status, filesize := none,
        crawl_delay := none, sitemap_locations := none, error := none }
    else
      let lines := jsSplit body '\n'
      let scanned := lines.foldl robotsLineStep (none, [])
      { detected := true, url := robotsUrl, status_code := status,
        filesize := some body.utf8ByteSize,
        crawl_delay := scanned.1,
        sitemap_locations := if scanned.2.isEmpty then none else some scanned.2,
        error := none }

/-! ## ScanOrchestrator — `scanSite` (client/src/scanner/orchestrator.ts)

Each probe's settled outcome is a parameter: `Except String α` for the
five probes whose failures are caught and pushed onto `errors`
(`redirect: …`, `sitemap: …`, …), and `Option String` for the silent
best-effort `.well-known` probe.  The parallel probes race only on the
`errors` array; the set of pushed messages is interleaving-independent, so
`errors` is modelled in program order with the sequential redirect error
first. -/

/-- JS truthiness of a `string | null` value: `null` and `""` are falsy. -/
def truthyStr : Option String → Bool
  | none => false
  | some s => !(s = "")

/-- The `result.tech_stack?.login_gate ?? false` read. -/
def loginGateOf : Option TechStackResult → Bool
  | some t => t.login_gate
  | none => false

/-- The error message pushed for one probe, if it failed. -/
def probeError (tag : String) : Except String α → List String
  | Except.error e => [tag ++ ": " ++ e]
  | Except.ok _ => []

/-- The post-`allSettled` hosting-provider priority merge (orchestrator
    lines 103–112): the `.well-known` declaration wins over the DNS
    inference; both guards are JS truthiness tests. -/
def mergeHosting (tech : Option TechStackResult) (dns : Option DnsResult)
    (wellKnownProvider : Option String) : Option TechStackResult :=
  match tech with
  | none => none
  | some t =>
    if truthyStr wellKnownProvider then
      some { t with hosting_provider := wellKnownProvider }
    else if truthyStr (match dns with | some d => d.hosting_provider | none => none) then
      some { t with hosting_provider :=
        match dns with | some d => d.hosting_provider | none => none }
    else some t

/-- The liveness computation (orchestrator lines 119–125): defined only
    when the redirect chain exists and has at least one hop; then the final
    hop must be 2xx and the page must not be a login gate. -/
def computeLive (chain : Option RedirectChainResult)
    (tech_stack : Option TechStackResult) : Option Bool :=
  match chain with
  | none => none
  | some c =>
    match c.hops.getLast? with
    | none => none
    | some hop =>
      some ((200 ≤ hop.status_code && hop.status_code < 300) && !(loginGateOf tech_stack))

/-- Translation of `scanSite`'s result assembly: error aggregation,
    hosting-provider priority merge, liveness computation, and status
    classification. -/
def scanSite (url : String)
    (redirectOutcome : Except String RedirectChainResult)
    (sitemapOutcome : Except String SitemapResult)
    (robotsOutcome : Except String RobotsResult)
    (techOutcome : Except String TechStackResult)
    (dnsOutcome : Except String DnsResult)
    (wellKnownProvider : Option String) : ScanResult :=
  let errors :=
    probeError "redirect" redirectOutcome ++ probeError "sitemap" sitemapOutcome ++
    probeError "robots" robotsOutcome ++ probeError "tech" techOutcome ++
    probeError "dns" dnsOutcome
  let redirect_chain := redirectOutcome.toOption
  let dns := dnsOutcome.toOption
  let tech_stack := mergeHosting techOutcome.toOption dns wellKnownProvider
  let live := computeLive redirect_chain tech_stack
  { domain := url
    status := if errors.length = 0 then "completed"
              else if errors.length < 3 then "partial" else "failed"
    redirect_chain := redirect_chain
    sitemap := sitemapOutcome.toOption
    robots := robotsOutcome.toOption
    tech_stack := tech_stack
    dns := dns
    errors := errors
    live := live }

/-! ## RedirectResolver — `checkRedirectChain` (scanner/redirectChain.ts)

The network is an oracle `net : String → Option (Nat × Option String)`:
`none` when both the `HEAD` attempt and its `GET` fallback threw (the
function then raises), and `some (status, location)` for a settled
response with its optional `Location` header.  WHATWG URL resolution
(`new URL(location, currentUrl)`) is the oracle
`resolveUrl location currentUrl`, `none` on a parse failure.  The `for`
loop over `i < MAX_REDIRECTS` becomes fuel recursion; each iteration
fetches the current URL exactly once. -/

def MAX_REDIRECTS : Nat := 10

/-- The loop body of `checkRedirectChain`: visited-set check, fetch, hop
    push, and 3xx `Location` chasing. -/
def redirectLoop (net : String → Option (Nat × Option String))
    (resolveUrl : String → String → Option String) :
    Nat → List String → List RedirectHop → String → Except String (List RedirectHop)
  | 0, _, hops, _ => Except.ok hops
  | fuel + 1, visited, hops, currentUrl =>
    if currentUrl ∈ visited then Except.ok hops
    else
      match net currentUrl with
      | none => Except.error ("Redirect check failed at " ++ currentUrl)
      | some (status, location) =>
        let hops' := hops ++ [⟨currentUrl, status, hops.length⟩]
        if 300 ≤ status ∧ status < 400 then
          match location with
          | none => Except.ok hops'
          | some loc =>
            match resolveUrl loc currentUrl with
            | none => Except.ok hops'
            | some nextUrl =>
              redirectLoop net resolveUrl fuel (currentUrl :: visited) hops' nextUrl
        else Except.ok hops'

/-- Translation of `checkRedirectChain`: run the loop from a fresh visited
    set, then assemble the chain record. -/
def checkRedirectChain (net : String → Option (Nat × Option String))
    (resolveUrl : String → String → Option String) (url : String) :
    Except String RedirectChainResult :=
  match redirectLoop net resolveUrl MAX_REDIRECTS [] [] url with
  | Except.error e => Except.error e
  | Except.ok hops =>
    Except.ok
      { original_url := url
        final_url := match hops.getLast? with | some h => h.url | none => url
        was_redirected :=
          decide (hops.length > 1) ||
            (decide (hops.length = 1) && !((hops.headD ⟨url, 0, 0⟩).url = url))
        hops := hops
        total_hops := hops.length }

/-- The loop's termination evidence: either the hop cap was reached, or the
    last hop explains the exit — a non-3xx status, a missing `Location`, an
    unresolvable `Location`, or a resolved target already among the
    recorded hop URLs. -/
def chainEndCause (net : String → Option (Nat × Option String))
    (resolveUrl : String → String → Option String) (res : List RedirectHop) : Prop :=
  res.length = MAX_REDIRECTS ∨
    ∃ h st loc, res.getLast? = some h ∧ net h.url = some (st, loc) ∧ h.status_code = st ∧
      (¬(300 ≤ st ∧ st < 400) ∨ loc = none ∨
        ∃ l, loc = some l ∧ (resolveUrl l h.url = none ∨
          ∃ nx, resolveUrl l h.url = some nx ∧ nx ∈ res.map RedirectHop.url))

/-! ## TechStackDetector — `detectCms` (scanner/techDetector.ts)

Headers are the lower-cased-key record `detectTech` builds, modelled as an
association list.  The two `/<meta[^>]*generator[^>]*NAME/i` regex tests
are implemented by an executable scanner: since neither gap nor literal
may contain `>`, the pattern matches exactly when some occurrence of
`<meta` is followed, within its `>`-free suffix, by `generator` and then
(at or after the first such `generator`) by the CMS name. -/

/-- `headers[k]` on the lower-cased-key record. -/
def headerVal (headers : List (String × String)) (k : String) : Option String :=
  List.lookup k headers

/-- `headers[k]?.toLowerCase().includes(needle)` with a lower-case needle. -/
def headerCI (headers : List (String × String)) (k needle : String) : Bool :=
  match headerVal headers k with
  | some v => strContainsCI v needle
  | none => false

/-- JS truthiness of `headers[k]` (absent or empty is falsy). -/
def headerTruthy (headers : List (String × String)) (k : String) : Bool :=
  truthyStr (headerVal headers k)

/-- The `>`-free prefix a `[^>]*` gap can span. -/
def gtFree (cs : List Char) : List Char := cs.takeWhile (fun c => !(c = '>'))

/-- The suffix after the first occurrence of `needle`, if any. -/
def afterFirstMatch (needle : List Char) : List Char → Option (List Char)
  | [] => if needle.isEmpty then some [] else none
  | c :: rest =>
    if startsWithL needle (c :: rest) then some ((c :: rest).drop needle.length)
    else afterFirstMatch needle rest

/-- One candidate `<meta` position: does its `>`-free suffix contain
    `generator` and then `needle`? -/
def metaGenSeg (needle : List Char) (seg : List Char) : Bool :=
  match afterFirstMatch "generator".toList seg with
  | some rest => containsL needle rest
  | none => false

/-- Scan every position for `<meta` followed by a matching segment. -/
def metaGenScan (needle : List Char) : List Char → Bool
  | [] => false
  | c :: rest =>
    (startsWithL "<meta".toList (c :: rest) && metaGenSeg needle (gtFree ((c :: rest).drop 5)))
      || metaGenScan needle rest

/-- Test of `/<meta[^>]*generator[^>]*needle/i` (lower-case `needle`). -/
def metaGenTest (html : String) (needle : String) : Bool :=
  metaGenScan needle.toList (lowerL html.toList)

/-- The per-candidate CMS scores, in the source's insertion order; the
    Squarespace / Wix / Shopify keys exist only when their single signal
    fires, exactly as in the source. -/
def cmsScores (html : String) (headers : List (String × String)) :
    List (String × Nat) :=
  let htmlLower := strToLower html
  let wpScore :=
    (if metaGenTest html "wordpress" then 50 else 0) +
    (if strContains html "wp-content/" then 30 else 0) +
    (if strContains html "wp-includes/" then 30 else 0) +
    (if strContains html "/wp-json/" then 20 else 0) +
    (if headerCI headers "x-powered-by" "wordpress" then 40 else 0)
  let drupalScore :=
    (if strContainsCI html "drupal" then 30 else 0) +
    (if strContains html "/sites/default/files/" then 30 else 0) +
    (if strContains html "Drupal.settings" then 40 else 0) +
    (if headerCI headers "x-generator" "drupal" then 50 else 0) +
    (if headerTruthy headers "x-drupal-cache" then 30 else 0)
  let joomlaScore :=
    (if strContains htmlLower "/components/com_" then 30 else 0) +
    (if strContains htmlLower "joomla" then 20 else 0) +
    (if strContains htmlLower "/media/jui/" then 30 else 0)
  let scCookie := match headerVal headers "set-cookie" with | some v => v | none => ""
  let sitecoreScore :=
    (if metaGenTest html "sitecore" then 50 else 0) +
    (if headerTruthy headers "x-sitecore-requestid" ||
        headerTruthy headers "x-sitecore-version" then 50 else 0) +
    (if strContainsCI scCookie "sc_analytics_global_cookie" then 50 else 0) +
    (if strContains html "/-/media/" || strContains html "/~/media/" then 40 else 0) +
    (if strContains html "data-sc-" then 30 else 0) +
    (if strContains html "/api/jss/" || strContains html "/-/jsss/" then 30 else 0) +
    (if strContainsCI html "sitecore" then 10 else 0)
  [("WordPress", wpScore), ("Drupal", drupalScore), ("Joomla", joomlaScore),
    ("Sitecore", sitecoreScore)]
  ++ (if strContains htmlLower "squarespace" then [("Squarespace", 60)] else [])
  ++ (if strContains htmlLower "wixsite.com" || strContains htmlLower "wix.com/dpages"
      then [("Wix", 60)] else [])
  ++ (if strContains htmlLower "shopify" || strContains htmlLower "cdn.shopify.com"
      then [("Shopify", 60)] else [])

/-- The source's selection loop: keep the strictly-higher scorer, starting
    from `{name: '', score: 0}`, and require the winner to clear 40. -/
def selectCms (scores : List (String × Nat)) : Option String :=
  let highest := scores.foldl (fun acc p => if p.2 > acc.2 then p else acc) ("", 0)
  if highest.2 ≥ 40 then some highest.1 else none

/-- Translation of `detectCms`. -/
def detectCms (html : String) (headers : List (String × String)) : Option String :=
  selectCms (cmsScores html headers)

/-! ## JSON values — the platform `JSON.parse` / `JSON.stringify`

`computeDiff` compares values through the platform JSON round-trip, so the
model carries an executable JSON value type, parser and serialiser
implementing the JSON grammar (with numbers restricted to integers and
string escapes to the single-character forms — the fragment the stored
scan fields use). -/

inductive Jval where
  | jnull
  | jbool (b : Bool)
  | jnum (n : Int)
  | jstr (s : String)
  | jarr (elems : List Jval)
  | jobj (fields : List (String × Jval))
  deriving Repr

/-- JSON insignificant whitespace. -/
def skipWs (cs : List Char) : List Char :=
  cs.dropWhile (fun c => c = ' ' || c = '\t' || c = '\n' || c = '\r')

/-- Single-character JSON escapes. -/
def escChar : Char → Option Char
  | '"' => some '"'
  | '\\' => some '\\'
  | '/' => some '/'
  | 'b' => some '\x08'
  | 'f' => some '\x0c'
  | 'n' => some '\n'
  | 'r' => some '\r'
  | 't' => some '\t'
  | _ => none

/-- Parse a string body up to the closing quote. -/
def parseStrChars : List Char → Option (List Char × List Char)
  | [] => none
  | '"' :: rest => some ([], rest)
  | '\\' :: [] => none
  | '\\' :: e :: rest =>
    match escChar e with
    | some c => (parseStrChars rest).map (fun p => (c :: p.1, p.2))
    | none => none
  | c :: rest =>
    if c.toNat < 32 then none
    else (parseStrChars rest).map (fun p => (c :: p.1, p.2))

/-- Parse a JSON integer literal (sign, no leading zeros, no fraction or
    exponent). -/
def parseIntLit (cs : List Char) : Option (Int × List Char) :=
  let neg := match cs with | '-' :: _ => true | _ => false
  let cs1 := if neg then cs.drop 1 else cs
  match cs1 with
  | [] => none
  | c :: _ =>
    if !c.isDigit then none
    else
      let ds := cs1.takeWhile Char.isDigit
      let rest := cs1.drop ds.length
      if ds.length > 1 && ds.headD '0' = '0' then none
      else
        match rest with
        | '.' :: _ => none
        | 'e' :: _ => none
        | 'E' :: _ => none
        | _ => some (if neg then -(natOfDigits ds : Int) else (natOfDigits ds : Int), rest)

mutual

/-- Parse one JSON value, returning it and the unconsumed suffix. -/
def parseV : Nat → List Char → Option (Jval × List Char)
  | 0, _ => none
  | fuel + 1, cs =>
    match skipWs cs with
    | [] => none
    | 'n' :: r => if startsWithL "ull".toList r then some (Jval.jnull, r.drop 3) else none
    | 't' :: r => if startsWithL "rue".toList r then some (Jval.jbool true, r.drop 3) else none
    | 'f' :: r => if startsWithL "alse".toList r then some (Jval.jbool false, r.drop 4) else none
    | '"' :: r => (parseStrChars r).map (fun p => (Jval.jstr (String.mk p.1), p.2))
    | '[' :: r =>
      (match skipWs r with
       | ']' :: r2 => some (Jval.jarr [], r2)
       | r2 => (parseElems fuel r2).map (fun p => (Jval.jarr p.1, p.2)))
    | '\x7b' :: r =>
      (match skipWs r with
       | '\x7d' :: r2 => some (Jval.jobj [], r2)
       | r2 => (parseFields fuel r2).map (fun p => (Jval.jobj p.1, p.2)))
    | cs1 => (parseIntLit cs1).map (fun p => (Jval.jnum p.1, p.2))

/-- Parse comma-separated array elements up to `]`. -/
def parseElems : Nat → List Char → Option (List Jval × List Char)
  | 0, _ => none
  | fuel + 1, cs =>
    match parseV fuel cs with
    | none => none
    | some (v, rest) =>
      match skipWs rest with
      | ',' :: r2 => (parseElems fuel r2).map (fun p => (v :: p.1, p.2))
      | ']' :: r2 => some ([v], r2)
      | _ => none

/-- Parse comma-separated object members up to the closing brace. -/
def parseFields : Nat → List Char → Option (List (String × Jval) × List Char)
  | 0, _ => none
  | fuel + 1, cs =>
    match skipWs cs with
    | '"' :: r =>
      (match parseStrChars r with
       | none => none
       | some (kcs, r2) =>
         match skipWs r2 with
         | ':' :: r3 =>
           (match parseV fuel r3 with
            | none => none
            | some (v, r4) =>
              match skipWs r4 with
              | ',' :: r5 => (parseFields fuel r5).map (fun p => ((String.mk kcs, v) :: p.1, p.2))
              | '\x7d' :: r5 => some ([(String.mk kcs, v)], r5)
              | _ => none)
         | _ => none)
    | _ => none

end

/-- The platform `JSON.parse`, `none` on a syntax error. -/
def jsonParse (s : String) : Option Jval :=
  match parseV (2 * s.length + 2) s.toList with
  | some (v, rest) => if (skipWs rest).isEmpty then some v else none
  | none => none

/-- Hexadecimal digit for control-character escapes. -/
def hexDigit (n : Nat) : Char :=
  if n < 10 then Char.ofNat ('0'.toNat + n) else Char.ofNat ('a'.toNat + (n - 10))

/-- `JSON.stringify` escaping of string contents. -/
def escapeChars : List Char → List Char
  | [] => []
  | c :: rest =>
    (if c = '"' then ['\\', '"']
     else if c = '\\' then ['\\', '\\']
     else if c = '\n' then ['\\', 'n']
     else if c = '\r' then ['\\', 'r']
     else if c = '\t' then ['\\', 't']
     else if c = '\x08' then ['\\', 'b']
     else if c = '\x0c' then ['\\', 'f']
     else if c.toNat < 32 then
       ['\\', 'u', '0', '0', hexDigit (c.toNat / 16), hexDigit (c.toNat % 16)]
     else [c]) ++ escapeChars rest

/-- A JSON string literal. -/
def quoteJson (s : String) : String :=
  "\"" ++ String.mk (escapeChars s.toList) ++ "\""

mutual

/-- The platform `JSON.stringify` (no indentation, as the source calls it). -/
def jstringify : Jval → String
  | Jval.jnull => "null"
  | Jval.jbool true => "true"
  | Jval.jbool false => "false"
  | Jval.jnum n => toString n
  | Jval.jstr s => quoteJson s
  | Jval.jarr vs => "[" ++ jstringifyList vs ++ "]"
  | Jval.jobj fs => "\x7b" ++ jstringifyFields fs ++ "\x7d"

/-- Comma-joined array elements. -/
def jstringifyList : List Jval → String
  | [] => ""
  | [v] => jstringify v
  | v :: rest => jstringify v ++ "," ++ jstringifyList rest

/-- Comma-joined object members. -/
def jstringifyFields : List (String × Jval) → String
  | [] => ""
  | [f] => quoteJson f.1 ++ ":" ++ jstringify f.2
  | f :: rest => quoteJson f.1 ++ ":" ++ jstringify f.2 ++ "," ++ jstringifyFields rest

end

/-! ## DiffEngine — `computeDiff` (client/src/lib/diff.ts)

Field maps are association lists of JSON-representable values; a missing
key is JS `undefined`, modelled as `none`.  `JSON.stringify(undefined)`
is `undefined`, so the stringified comparison is on `Option String`,
matching the `!==` in the source. -/

def SKIP_FIELDS : List String := ["imported_at", "updated_at", "scan_date"]

def JSON_FIELDS : List String :=
  ["dap_parameters", "third_party_service_domains", "third_party_service_urls",
   "cookie_domains", "source_list", "required_links_url", "required_links_text",
   "robots_txt_sitemap_locations", "uswds_usa_class_list"]

/-- Translation of `parseVal`: JSON-designated fields holding a string are
    parsed, falling back to the raw string on a parse error. -/
def parseVal (key : String) (val : Option Jval) : Option Jval :=
  match val with
  | some (Jval.jstr s) =>
    if JSON_FIELDS.contains key then
      match jsonParse s with
      | some v => some v
      | none => some (Jval.jstr s)
    else some (Jval.jstr s)
  | v => v

structure DiffField where
  field : String
  before : Option Jval
  after : Option Jval

structure DiffResult where
  changed : List DiffField
  unchanged_count : Nat

/-- Key union in JS `Set` insertion order (first occurrence wins). -/
def dedupFrom (seen : List String) : List String → List String
  | [] => []
  | k :: rest =>
    if k ∈ seen then dedupFrom seen rest else k :: dedupFrom (k :: seen) rest

/-- One key's comparison in the `computeDiff` loop. -/
def diffStep (before after : List (String × Jval)) (acc : List DiffField × Nat)
    (key : String) : List DiffField × Nat :=
  if SKIP_FIELDS.contains key then acc
  else
    let bVal := parseVal key (List.lookup key before)
    let aVal := parseVal key (List.lookup key after)
    if Option.map jstringify bVal ≠ Option.map jstringify aVal then
      (acc.1 ++ [⟨key, bVal, aVal⟩], acc.2)
    else (acc.1, acc.2 + 1)

/-- Translation of `computeDiff`. -/
def computeDiff (before after : List (String × Jval)) : DiffResult :=
  let allKeys := dedupFrom [] (before.map Prod.fst ++ after.map Prod.fst)
  let r := allKeys.foldl (diffStep before after) ([], 0)
  { changed := r.1, unchanged_count := r.2 }

/-! ## ConcurrencyLimiter — `pLimit` (DomainImportModal.tsx)

`pLimit` spawns `Math.min(concurrency, queue.length)` async workers over a
shared queue; each worker loops `while (queue.length > 0 && !shouldAbort())
{ const item = queue.shift()!; await task(item) }`.  JavaScript's event
loop serialises everything between `await` points, so the guard check plus
`shift` is one atomic step.  The model is a labelled transition system:
a worker is `idle` at the loop head, `busy item` while awaiting its task,
`done` after leaving the loop; the abort predicate's current value labels
each transition. -/

inductive WStatus (τ : Type) where
  | idle
  | busy (item : τ)
  | done
  deriving Repr, DecidableEq

structure PoolState (τ : Type) where
  queue : List τ
  workers : List (WStatus τ)
  deriving Repr, DecidableEq

/-- The state `pLimit` starts from: the copied queue and
    `Math.min(concurrency, queue.length)` workers at their loop heads. -/
def pLimitInit (items : List τ) (concurrency : Nat) : PoolState τ :=
  { queue := items, workers := List.replicate (min concurrency items.length) WStatus.idle }

/-- One scheduler step of `pLimit` while the abort predicate currently
    evaluates to `abort`. -/
inductive PoolStep (abort : Bool) : PoolState τ → PoolState τ → Prop
  | dequeue (q : List τ) (ws : List (WStatus τ)) (i : Nat) (x : τ) (rest : List τ) :
      abort = false → ws[i]? = some WStatus.idle → q = x :: rest →
      PoolStep abort ⟨q, ws⟩ ⟨rest, ws.set i (WStatus.busy x)⟩
  | finish (q : List τ) (ws : List (WStatus τ)) (i : Nat) (x : τ) :
      ws[i]? = some (WStatus.busy x) →
      PoolStep abort ⟨q, ws⟩ ⟨q, ws.set i WStatus.idle⟩
  | exit (q : List τ) (ws : List (WStatus τ)) (i : Nat) :
      ws[i]? = some WStatus.idle → (q = [] ∨ abort = true) →
      PoolStep abort ⟨q, ws⟩ ⟨q, ws.set i WStatus.done⟩

/-- A run: a sequence of steps labelled by the abort values observed. -/
inductive PoolSteps : List Bool → PoolState τ → PoolState τ → Prop
  | nil (σ : PoolState τ) : PoolSteps [] σ σ
  | cons {a : Bool} {as : List Bool} {σ σ' σ'' : PoolState τ} :
      PoolStep a σ σ' → PoolSteps as σ' σ'' → PoolSteps (a :: as) σ σ''

/-! ## Theorems -/

theorem checkHostingProvider_ne_empty (resp : Option (Nat × String)) :
    checkHostingProvider resp ≠ some "" := by
  intro h
  rcases resp with _ | ⟨status, body⟩ <;> simp only [checkHostingProvider] at h
  · exact Option.noConfusion h
  split at h
  · exact Option.noConfusion h
  · split at h
    · exact Option.noConfusion h
    · rename_i h2
      rw [Option.some.injEq] at h
      rw [h] at h2
      simp at h2


theorem inferFromJoined_ne_empty (ns ips : String) :
    inferFromJoined ns ips ≠ some "" := by
  intro h
  unfold inferFromJoined at h
  rw [Option.map_eq_some'] at h
  obtain ⟨r, hfind, hsnd⟩ := h
  have hmem : r ∈ hostingRules ns ips := List.mem_of_find?_eq_some hfind
  have hsnds : r.2 ∈ (hostingRules ns ips).map Prod.snd := List.mem_map_of_mem _ hmem
  rw [hsnd] at hsnds
  simp only [hostingRules, List.map_cons, List.map_nil] at hsnds
  revert hsnds
  decide


theorem inferHostingProvider_ne_empty (nsRecords aRecords : List String) :
    inferHostingProvider nsRecords aRecords ≠ some "" :=
  inferFromJoined_ne_empty _ _


/-- Main loop invariant: a successful run extends the accumulated hops by
    at most `fuel`, keeps the hop URLs duplicate-free, and exits for one of
    the documented reasons. -/
theorem redirectLoop_ok_spec (net : String → Option (Nat × Option String))
    (resolveUrl : String → String → Option String) :
    ∀ (fuel : Nat) (visited : List String) (hops : List RedirectHop) (cur : String)
      (res : List RedirectHop),
      redirectLoop net resolveUrl fuel visited hops cur = Except.ok res →
      (hops.map RedirectHop.url).Nodup →
      (∀ h ∈ hops, h.url ∈ visited) →
      (∀ v ∈ visited, v ∈ hops.map RedirectHop.url) →
      (∃ t, res = hops ++ t) ∧ res.length ≤ hops.length + fuel ∧
        (res.map RedirectHop.url).Nodup ∧
        ((res = hops ∧ (fuel = 0 ∨ cur ∈ visited)) ∨
          res.length = hops.length + fuel ∨
          (∃ h st loc, res.getLast? = some h ∧ net h.url = some (st, loc) ∧
            h.status_code = st ∧
            (¬(300 ≤ st ∧ st < 400) ∨ loc = none ∨
              ∃ l, loc = some l ∧ (resolveUrl l h.url = none ∨
                ∃ nx, resolveUrl l h.url = some nx ∧ nx ∈ res.map RedirectHop.url)))) := by
  intro fuel
  induction fuel with
  | zero =>
    intro visited hops cur res hrun hA _hB _hC
    simp only [redirectLoop] at hrun
    obtain rfl : hops = res := Except.ok.inj hrun
    exact ⟨⟨[], by simp⟩, by omega, hA, Or.inl ⟨rfl, Or.inl rfl⟩⟩
  | succ fuel ih =>
    intro visited hops cur res hrun hA hB hC
    simp only [redirectLoop] at hrun
    by_cases hvis : cur ∈ visited
    · rw [if_pos hvis] at hrun
      obtain rfl : hops = res := Except.ok.inj hrun
      exact ⟨⟨[], by simp⟩, by omega, hA, Or.inl ⟨rfl, Or.inr hvis⟩⟩
    · rw [if_neg hvis] at hrun
      cases hnet : net cur with
      | none => rw [hnet] at hrun; exact Except.noConfusion hrun
      | some p =>
        obtain ⟨status, location⟩ := p
        rw [hnet] at hrun
        simp only at hrun
        -- the freshly pushed hop
        have hfresh : cur ∉ hops.map RedirectHop.url := fun hmem => hvis (by
          obtain ⟨h, hh, hu⟩ := List.mem_map.mp hmem
          exact hu ▸ hB h hh)
        have hA' : ((hops ++ [(⟨cur, status, hops.length⟩ : RedirectHop)]).map
            RedirectHop.url).Nodup := by
          rw [List.map_append, List.nodup_append]
          exact ⟨hA, List.nodup_singleton _, by
            intro a ha hb
            simp only [List.map_cons, List.map_nil, List.mem_singleton] at hb
            exact hfresh (hb ▸ ha)⟩
        have hlast : (hops ++ [(⟨cur, status, hops.length⟩ : RedirectHop)]).getLast?
            = some ⟨cur, status, hops.length⟩ := List.getLast?_concat _
        by_cases h3xx : 300 ≤ status ∧ status < 400
        · rw [if_pos h3xx] at hrun
          cases location with
          | none =>
            simp only at hrun
            obtain rfl := Except.ok.inj hrun
            refine ⟨⟨[⟨cur, status, hops.length⟩], rfl⟩,
              by simp only [List.length_append, List.length_singleton]; omega,
              hA', Or.inr (Or.inr ?_)⟩
            exact ⟨⟨cur, status, hops.length⟩, status, none, hlast, hnet, rfl,
              Or.inr (Or.inl rfl)⟩
          | some l =>
            simp only at hrun
            cases hres : resolveUrl l cur with
            | none =>
              rw [hres] at hrun
              obtain rfl := Except.ok.inj hrun
              refine ⟨⟨[⟨cur, status, hops.length⟩], rfl⟩,
                by simp only [List.length_append, List.length_singleton]; omega,
                hA', Or.inr (Or.inr ?_)⟩
              exact ⟨⟨cur, status, hops.length⟩, status, some l, hlast, hnet, rfl,
                Or.inr (Or.inr ⟨l, rfl, Or.inl hres⟩)⟩
            | some nx =>
              rw [hres] at hrun
              have hB' : ∀ h ∈ hops ++ [(⟨cur, status, hops.length⟩ : RedirectHop)],
                  h.url ∈ cur :: visited := by
                intro h hh
                rcases List.mem_append.mp hh with hh | hh
                · exact List.mem_cons_of_mem _ (hB h hh)
                · simp only [List.mem_singleton] at hh
                  subst hh
                  exact List.mem_cons_self _ _
              have hC' : ∀ v ∈ cur :: visited,
                  v ∈ (hops ++ [(⟨cur, status, hops.length⟩ : RedirectHop)]).map
                    RedirectHop.url := by
                intro v hv
                rw [List.map_append]
                rcases List.mem_cons.mp hv with rfl | hv
                · simp
                · exact List.mem_append_left _ (hC v hv)
              obtain ⟨⟨t, ht⟩, hlen, hnd, hcause⟩ :=
                ih (cur :: visited) (hops ++ [⟨cur, status, hops.length⟩]) nx res hrun
                  hA' hB' hC'
              refine ⟨⟨[⟨cur, status, hops.length⟩] ++ t, by rw [ht, List.append_assoc]⟩,
                ?_, hnd, ?_⟩
              · simp only [List.length_append, List.length_singleton] at hlen
                omega
              rcases hcause with ⟨rfl, hstop⟩ | hfull | hpass
              · rcases hstop with rfl | hnx
                · -- inner fuel exhausted immediately: every step pushed a hop
                  refine Or.inr (Or.inl ?_)
                  simp only [List.length_append, List.length_singleton]
                · -- the resolved target revisits a recorded URL
                  refine Or.inr (Or.inr ⟨⟨cur, status, hops.length⟩, status, some l,
                    hlast, hnet, rfl,
                    Or.inr (Or.inr ⟨l, rfl, Or.inr ⟨nx, hres, ?_⟩⟩)⟩)
                  exact hC' nx hnx
              · refine Or.inr (Or.inl ?_)
                simp only [List.length_append, List.length_singleton] at hfull
                omega
              · exact Or.inr (Or.inr hpass)
        · rw [if_neg h3xx] at hrun
          obtain rfl := Except.ok.inj hrun
          refine ⟨⟨[⟨cur, status, hops.length⟩], rfl⟩,
            by simp only [List.length_append, List.length_singleton]; omega,
            hA', Or.inr (Or.inr ?_)⟩
          exact ⟨⟨cur, status, hops.length⟩, status, location, hlast, hnet, rfl,
            Or.inl h3xx⟩


/-- Every value `checkRedirectChain` returns (rather than throws) has a
    non-empty, duplicate-free hop list of at most `MAX_REDIRECTS` hops, a
    documented exit cause, `total_hops` equal to the hop count, and
    `final_url` equal to the last hop's URL. -/
theorem checkRedirectChain_ok_spec (net : String → Option (Nat × Option String))
    (resolveUrl : String → String → Option String) (url : String)
    (r : RedirectChainResult)
    (hrun : checkRedirectChain net resolveUrl url = Except.ok r) :
    r.hops ≠ [] ∧ r.hops.length ≤ MAX_REDIRECTS ∧
      (r.hops.map RedirectHop.url).Nodup ∧ chainEndCause net resolveUrl r.hops ∧
      r.total_hops = r.hops.length ∧
      (∃ h, r.hops.getLast? = some h ∧ r.final_url = h.url) ∧
      r.original_url = url := by
  unfold checkRedirectChain at hrun
  cases hloop : redirectLoop net resolveUrl MAX_REDIRECTS [] [] url with
  | error e => rw [hloop] at hrun; exact Except.noConfusion hrun
  | ok hops =>
    rw [hloop] at hrun
    simp only at hrun
    obtain rfl := Except.ok.inj hrun
    obtain ⟨_, hlen, hnd, hcause⟩ :=
      redirectLoop_ok_spec net resolveUrl MAX_REDIRECTS [] [] url hops hloop
        (by simp) (by simp) (by simp)
    simp only [List.length_nil, Nat.zero_add] at hlen
    have hne : hops ≠ [] := by
      rcases hcause with ⟨_, h0 | h0⟩ | hfull | ⟨h, st, loc, hlastq, _⟩
      · exact absurd h0 (by decide)
      · exact absurd h0 (List.not_mem_nil url)
      · intro habs
        rw [habs] at hfull
        exact absurd hfull (by decide)
      · intro habs
        rw [habs] at hlastq
        exact Option.noConfusion hlastq
    have hcause' : chainEndCause net resolveUrl hops := by
      rcases hcause with ⟨_, h0 | h0⟩ | hfull | hpass
      · exact absurd h0 (by decide)
      · exact absurd h0 (List.not_mem_nil url)
      · exact Or.inl (by simpa using hfull)
      · exact Or.inr hpass
    obtain ⟨h, hlastq⟩ := Option.ne_none_iff_exists'.mp
      (mt List.getLast?_eq_none_iff.mp hne)
    exact ⟨hne, hlen, hnd, hcause', rfl, ⟨h, hlastq, by rw [hlastq]⟩, rfl⟩


/-- The selection fold returns its seed or a list element. -/
theorem cmsFold_mem (l : List (String × Nat)) :
    ∀ init : String × Nat,
      l.foldl (fun acc p => if p.2 > acc.2 then p else acc) init = init ∨
        l.foldl (fun acc p => if p.2 > acc.2 then p else acc) init ∈ l := by
  induction l with
  | nil => intro init; exact Or.inl rfl
  | cons p rest ih =>
    intro init
    simp only [List.foldl_cons]
    rcases ih (if p.2 > init.2 then p else init) with h | h
    · rw [h]
      split
      · exact Or.inr (List.mem_cons_self _ _)
      · exact Or.inl rfl
    · exact Or.inr (List.mem_cons_of_mem _ h)


/-- The selection fold's score dominates the seed and every element. -/
theorem cmsFold_max (l : List (String × Nat)) :
    ∀ init : String × Nat,
      init.2 ≤ (l.foldl (fun acc p => if p.2 > acc.2 then p else acc) init).2 ∧
        ∀ q ∈ l, q.2 ≤ (l.foldl (fun acc p => if p.2 > acc.2 then p else acc) init).2 := by
  induction l with
  | nil => intro init; exact ⟨Nat.le_refl _, fun q hq => absurd hq (List.not_mem_nil q)⟩
  | cons p rest ih =>
    intro init
    simp only [List.foldl_cons]
    obtain ⟨h1, h2⟩ := ih (if p.2 > init.2 then p else init)
    constructor
    · refine Nat.le_trans ?_ h1
      split
      · omega
      · exact Nat.le_refl _
    · intro q hq
      rcases List.mem_cons.mp hq with rfl | hq
      · refine Nat.le_trans ?_ h1
        split
        · exact Nat.le_refl _
        · omega
      · exact h2 q hq

/-- C6: `scanSite` classifies `status` from the number of aggregated probe
    error strings: `completed` exactly when there are no errors, `partial`
    exactly when there are one or two, `failed` exactly when there are
    three or more. -/
theorem c6_status_classification (url : String)
    (rO : Except String RedirectChainResult) (sO : Except String SitemapResult)
    (bO : Except String RobotsResult) (tO : Except String TechStackResult)
    (dO : Except String DnsResult) (wk : Option String) :
    ((scanSite url rO sO bO tO dO wk).status = "completed" ↔
      (scanSite url rO sO bO tO dO wk).errors.length = 0)
    ∧ ((scanSite url rO sO bO tO dO wk).status = "partial" ↔
      (1 ≤ (scanSite url rO sO bO tO dO wk).errors.length ∧
        (scanSite url rO sO bO tO dO wk).errors.length ≤ 2))
    ∧ ((scanSite url rO sO bO tO dO wk).status = "failed" ↔
      3 ≤ (scanSite url rO sO bO tO dO wk).errors.length) := by
  simp only [scanSite]
  generalize (probeError "redirect" rO ++ probeError "sitemap" sO ++
    probeError "robots" bO ++ probeError "tech" tO ++ probeError "dns" dO) = es
  split_ifs with h1 h2 <;> refine ⟨?_, ?_, ?_⟩ <;> simp [-List.length_eq_zero] <;> omega

theorem mergeHosting_loginGate (tech : Option TechStackResult)
    (dns : Option DnsResult) (wk : Option String) :
    loginGateOf (mergeHosting tech dns wk) = loginGateOf tech := by
  cases tech with
  | none => rfl
  | some t =>
    simp only [mergeHosting]
    split_ifs <;> rfl

theorem scanSite_live (url : String) (rO : Except String RedirectChainResult)
    (sO : Except String SitemapResult) (bO : Except String RobotsResult)
    (tO : Except String TechStackResult) (dO : Except String DnsResult)
    (wk : Option String) :
    (scanSite url rO sO bO tO dO wk).live =
      computeLive rO.toOption (mergeHosting tO.toOption dO.toOption wk) := rfl

theorem scanSite_tech_stack (url : String) (rO : Except String RedirectChainResult)
    (sO : Except String SitemapResult) (bO : Except String RobotsResult)
    (tO : Except String TechStackResult) (dO : Except String DnsResult)
    (wk : Option String) :
    (scanSite url rO sO bO tO dO wk).tech_stack =
      mergeHosting tO.toOption dO.toOption wk := rfl

/-- C2: the `live` field returned by `scanSite` equals "final redirect hop
    status is 2xx AND NOT login_gate" whenever the redirect chain has at
    least one hop (`login_gate` read from the tech-stack result, `false`
    when that result is absent); it stays `null` when the chain has no hops
    or the resolver threw; a final 200 with no login gate gives `true`, and
    a final 401 gives `false` regardless of the other signals. -/
theorem c2_liveness (url : String) (rO : Except String RedirectChainResult)
    (sO : Except String SitemapResult) (bO : Except String RobotsResult)
    (tO : Except String TechStackResult) (dO : Except String DnsResult)
    (wk : Option String) :
    (∀ (c : RedirectChainResult) (hop : RedirectHop), rO = Except.ok c →
      c.hops.getLast? = some hop →
      (scanSite url rO sO bO tO dO wk).live =
        some ((200 ≤ hop.status_code && hop.status_code < 300) &&
          !(loginGateOf tO.toOption)))
    ∧ (∀ c : RedirectChainResult, rO = Except.ok c → c.hops = [] →
      (scanSite url rO sO bO tO dO wk).live = none)
    ∧ (∀ e : String, rO = Except.error e →
      (scanSite url rO sO bO tO dO wk).live = none)
    ∧ (∀ (c : RedirectChainResult) (hop : RedirectHop), rO = Except.ok c →
      c.hops.getLast? = some hop → hop.status_code = 200 →
      loginGateOf tO.toOption = false →
      (scanSite url rO sO bO tO dO wk).live = some true)
    ∧ (∀ (c : RedirectChainResult) (hop : RedirectHop), rO = Except.ok c →
      c.hops.getLast? = some hop → hop.status_code = 401 →
      (scanSite url rO sO bO tO dO wk).live = some false) := by
  have hmain : ∀ (c : RedirectChainResult) (hop : RedirectHop), rO = Except.ok c →
      c.hops.getLast? = some hop →
      (scanSite url rO sO bO tO dO wk).live =
        some ((200 ≤ hop.status_code && hop.status_code < 300) &&
          !(loginGateOf tO.toOption)) := by
    intro c hop hrO hlast
    subst hrO
    rw [scanSite_live]
    simp only [computeLive, Except.toOption, hlast, mergeHosting_loginGate]
  refine ⟨hmain, ?_, ?_, ?_, ?_⟩
  · intro c hrO hhops
    subst hrO
    rw [scanSite_live]
    simp only [computeLive, Except.toOption, hhops, List.getLast?_nil]
  · intro e hrO
    subst hrO
    rfl
  · intro c hop hrO hlast h200 hlg
    rw [hmain c hop hrO hlast, h200, hlg]
    rfl
  · intro c hop hrO hlast h401
    rw [hmain c hop hrO hlast, h401]
    rfl

theorem c2_witness :
    (scanSite "https://w.gov"
        (Except.ok ⟨"https://w.gov", "https://w.gov", false, [⟨"https://w.gov", 200, 0⟩], 1⟩)
        (Except.error "s") (Except.error "r") (Except.error "t") (Except.error "d")
        none).live = some true
    ∧ (scanSite "https://w.gov"
        (Except.ok ⟨"https://w.gov", "https://w.gov", false, [⟨"https://w.gov", 401, 0⟩], 1⟩)
        (Except.error "s") (Except.error "r") (Except.error "t") (Except.error "d")
        none).live = some false
    ∧ (scanSite "https://w.gov" (Except.error "down") (Except.error "s")
        (Except.error "r") (Except.error "t") (Except.error "d") none).live = none :=
  ⟨(c2_liveness "https://w.gov" _ (Except.error "s") (Except.error "r")
      (Except.error "t") (Except.error "d") none).2.2.2.1 _ ⟨"https://w.gov", 200, 0⟩
      rfl rfl rfl rfl,
   (c2_liveness "https://w.gov" _ (Except.error "s") (Except.error "r")
      (Except.error "t") (Except.error "d") none).2.2.2.2 _ ⟨"https://w.gov", 401, 0⟩
      rfl rfl rfl,
   (c2_liveness "https://w.gov" _ (Except.error "s") (Except.error "r")
      (Except.error "t") (Except.error "d") none).2.2.1 "down" rfl⟩

/-- C7: when the tech-stack probe produced a result, the final
    `tech_stack.hosting_provider` is the `.well-known` probe's value when
    that value is non-null, otherwise the DNS resolver's inferred provider
    when that is non-null, otherwise it stays null — the DNS inference
    never overrides a non-null well-known declaration.  (`detectTech`
    always returns `hosting_provider: null`, captured by the hypothesis.) -/
theorem c7_hosting_priority (url : String) (rO : Except String RedirectChainResult)
    (sO : Except String SitemapResult) (bO : Except String RobotsResult)
    (t : TechStackResult) (a4 a6 mx ns : List String)
    (wkResp : Option (Nat × String)) (ht : t.hosting_provider = none) :
    ∃ t', (scanSite url rO sO bO (Except.ok t)
        (Except.ok (resolveDns a4 a6 mx ns)) (checkHostingProvider wkResp)).tech_stack
        = some t'
      ∧ t'.hosting_provider =
          (match checkHostingProvider wkResp with
           | some w => some w
           | none => inferHostingProvider ns a4) := by
  rw [scanSite_tech_stack]
  cases hwk : checkHostingProvider wkResp with
  | some w =>
    have hw : ¬(w = "") := fun habs =>
      checkHostingProvider_ne_empty wkResp (habs ▸ hwk)
    refine ⟨{ t with hosting_provider := some w }, ?_, rfl⟩
    simp only [mergeHosting, Except.toOption, hwk, truthyStr]
    rw [if_pos]
    simp [hw]
  | none =>
    cases hinf : inferHostingProvider ns a4 with
    | some s =>
      have hs : ¬(s = "") := fun habs =>
        inferHostingProvider_ne_empty ns a4 (habs ▸ hinf)
      refine ⟨{ t with hosting_provider := some s }, ?_, rfl⟩
      simp only [mergeHosting, Except.toOption, hwk, truthyStr, resolveDns, hinf]
      rw [if_neg (by simp), if_pos]
      simp [hs]
    | none =>
      refine ⟨t, ?_, ht⟩
      simp only [mergeHosting, Except.toOption, hwk, truthyStr, resolveDns, hinf]
      rw [if_neg (by simp), if_neg (by simp)]

theorem c7_witness :
    ∃ t', (scanSite "https://w.gov" (Except.error "rd") (Except.error "s")
        (Except.error "r")
        (Except.ok ⟨none, none, none, none, true, false, false⟩)
        (Except.ok (resolveDns [] [] [] ["ns1.cloudflare.com"]))
        (checkHostingProvider none)).tech_stack = some t'
      ∧ t'.hosting_provider =
          (match checkHostingProvider none with
           | some w => some w
           | none => inferHostingProvider ["ns1.cloudflare.com"] []) :=
  c7_hosting_priority "https://w.gov" (Except.error "rd") (Except.error "s")
    (Except.error "r") ⟨none, none, none, none, true, false, false⟩
    [] [] [] ["ns1.cloudflare.com"] none rfl

/-- C5: every result `checkRedirectChain` returns has at most 10 hops, no
    URL appearing in two distinct hops, and ends on a non-3xx status, a
    missing or unparseable `Location`, a revisited URL, or the hop cap
    (`chainEndCause`). -/
theorem c5_redirect_invariants (net : String → Option (Nat × Option String))
    (resolveUrl : String → String → Option String) (url : String)
    (r : RedirectChainResult)
    (hrun : checkRedirectChain net resolveUrl url = Except.ok r) :
    r.hops.length ≤ 10 ∧ (r.hops.map RedirectHop.url).Nodup ∧
      chainEndCause net resolveUrl r.hops := by
  obtain ⟨-, hlen, hnd, hcause, -, -, -⟩ :=
    checkRedirectChain_ok_spec net resolveUrl url r hrun
  exact ⟨hlen, hnd, hcause⟩

theorem c5_witness :
    checkRedirectChain
        (fun u => if u = "https://a.gov" then some (301, some "https://b.gov")
          else if u = "https://b.gov" then some (200, none) else none)
        (fun loc _ => some loc) "https://a.gov" =
      Except.ok ⟨"https://a.gov", "https://b.gov", true,
        [⟨"https://a.gov", 301, 0⟩, ⟨"https://b.gov", 200, 1⟩], 2⟩
    ∧ ([⟨"https://a.gov", 301, 0⟩, (⟨"https://b.gov", 200, 1⟩ : RedirectHop)].length ≤ 10
    ∧ ([⟨"https://a.gov", 301, 0⟩, (⟨"https://b.gov", 200, 1⟩ : RedirectHop)].map
        RedirectHop.url).Nodup
    ∧ chainEndCause
        (fun u => if u = "https://a.gov" then some (301, some "https://b.gov")
          else if u = "https://b.gov" then some (200, none) else none)
        (fun loc _ => some loc)
        [⟨"https://a.gov", 301, 0⟩, ⟨"https://b.gov", 200, 1⟩]) :=
  ⟨rfl,
   c5_redirect_invariants
     (fun u => if u = "https://a.gov" then some (301, some "https://b.gov")
       else if u = "https://b.gov" then some (200, none) else none)
     (fun loc _ => some loc) "https://a.gov"
     ⟨"https://a.gov", "https://b.gov", true,
       [⟨"https://a.gov", 301, 0⟩, ⟨"https://b.gov", 200, 1⟩], 2⟩ rfl⟩

/-- C10: whenever `checkRedirectChain` returns rather than throws, the hop
    list is non-empty, `total_hops` equals its length, and `final_url` is
    the last hop's URL — so the original-URL fallback is unreachable on a
    successful return, and a scan's `live` is `null` exactly when the
    resolver threw and no redirect chain was recorded. -/
theorem c10_success_shape (net : String → Option (Nat × Option String))
    (resolveUrl : String → String → Option String) (url : String) :
    (∀ r : RedirectChainResult, checkRedirectChain net resolveUrl url = Except.ok r →
      r.hops ≠ [] ∧ r.total_hops = r.hops.length ∧
        (∃ h, r.hops.getLast? = some h ∧ r.final_url = h.url) ∧
        ∀ (u : String) (sO : Except String SitemapResult)
          (bO : Except String RobotsResult) (tO : Except String TechStackResult)
          (dO : Except String DnsResult) (wk : Option String),
          (scanSite u (Except.ok r) sO bO tO dO wk).live ≠ none)
    ∧ ∀ (e u : String) (sO : Except String SitemapResult)
        (bO : Except String RobotsResult) (tO : Except String TechStackResult)
        (dO : Except String DnsResult) (wk : Option String),
        (scanSite u (Except.error e) sO bO tO dO wk).live = none := by
  constructor
  · intro r hrun
    obtain ⟨hne, -, -, -, htot, hfin, -⟩ :=
      checkRedirectChain_ok_spec net resolveUrl url r hrun
    refine ⟨hne, htot, hfin, ?_⟩
    intro u sO bO tO dO wk
    rw [scanSite_live]
    obtain ⟨h, hlast, -⟩ := hfin
    simp only [computeLive, Except.toOption, hlast]
    exact fun habs => Option.noConfusion habs
  · intro e u sO bO tO dO wk
    rfl

theorem c10_witness :
    checkRedirectChain
        (fun u => if u = "https://c.gov" then some (200, none) else none)
        (fun loc _ => some loc) "https://c.gov" =
      Except.ok ⟨"https://c.gov", "https://c.gov", false, [⟨"https://c.gov", 200, 0⟩], 1⟩
    ∧ ([(⟨"https://c.gov", 200, 0⟩ : RedirectHop)] ≠ []
    ∧ (scanSite "https://c.gov"
        (Except.ok ⟨"https://c.gov", "https://c.gov", false, [⟨"https://c.gov", 200, 0⟩], 1⟩)
        (Except.error "s") (Except.error "r") (Except.error "t") (Except.error "d")
        none).live ≠ none
    ∧ (scanSite "https://c.gov" (Except.error "down") (Except.error "s")
        (Except.error "r") (Except.error "t") (Except.error "d") none).live = none) :=
  ⟨rfl,
   ((c10_success_shape
      (fun u => if u = "https://c.gov" then some (200, none) else none)
      (fun loc _ => some loc) "https://c.gov").1 _ rfl).1,
   ((c10_success_shape
      (fun u => if u = "https://c.gov" then some (200, none) else none)
      (fun loc _ => some loc) "https://c.gov").1 _ rfl).2.2.2 "https://c.gov"
      (Except.error "s") (Except.error "r") (Except.error "t") (Except.error "d") none,
   (c10_success_shape
      (fun u => if u = "https://c.gov" then some (200, none) else none)
      (fun loc _ => some loc) "https://c.gov").2 "down" "https://c.gov"
      (Except.error "s") (Except.error "r") (Except.error "t") (Except.error "d") none⟩

/-- C8: `detectCms` returns `null` whenever every candidate score is 39 or
    below, and returns the name of a maximal-scoring candidate whenever
    some candidate scores 40 or above. -/
theorem c8_cms_threshold (html : String) (headers : List (String × String)) :
    ((∀ p ∈ cmsScores html headers, p.2 ≤ 39) → detectCms html headers = none)
    ∧ ∀ p ∈ cmsScores html headers, 40 ≤ p.2 →
        ∃ q ∈ cmsScores html headers, detectCms html headers = some q.1 ∧
          40 ≤ q.2 ∧ ∀ r ∈ cmsScores html headers, r.2 ≤ q.2 := by
  constructor
  · intro hall
    have hhi : (List.foldl (fun acc p => if p.2 > acc.2 then p else acc) ("", 0)
        (cmsScores html headers)).2 ≤ 39 := by
      rcases cmsFold_mem (cmsScores html headers) ("", 0) with h | h
      · rw [h]
        decide
      · exact hall _ h
    unfold detectCms selectCms
    rw [if_neg]
    omega
  · intro p hp h40
    obtain ⟨hinit, hmax⟩ := cmsFold_max (cmsScores html headers) ("", 0)
    have hscore : 40 ≤ (List.foldl (fun acc p => if p.2 > acc.2 then p else acc) ("", 0)
        (cmsScores html headers)).2 := Nat.le_trans h40 (hmax p hp)
    have hmem : List.foldl (fun acc p => if p.2 > acc.2 then p else acc) ("", 0)
        (cmsScores html headers) ∈ cmsScores html headers := by
      rcases cmsFold_mem (cmsScores html headers) ("", 0) with h | h
      · rw [h] at hscore
        exact absurd hscore (by decide)
      · exact h
    refine ⟨_, hmem, ?_, hscore, hmax⟩
    unfold detectCms selectCms
    rw [if_pos hscore]

theorem c8_witness :
    detectCms "" [] = none
    ∧ ∃ q ∈ cmsScores "" [("x-powered-by", "WordPress")],
        detectCms "" [("x-powered-by", "WordPress")] = some q.1 ∧
          40 ≤ q.2 ∧ ∀ r ∈ cmsScores "" [("x-powered-by", "WordPress")], r.2 ≤ q.2 :=
  ⟨(c8_cms_threshold "" []).1 (by decide),
   (c8_cms_threshold "" [("x-powered-by", "WordPress")]).2 ("WordPress", 40)
     (by decide) (by decide)⟩

theorem robotsFold_pair (lines : List String) :
    ∀ (cd0 : Option Nat) (sl0 : List String),
      lines.foldl robotsLineStep (cd0, sl0) =
        (lines.foldl cdStep cd0, lines.foldl slStep sl0) := by
  induction lines with
  | nil => intro cd0 sl0; rfl
  | cons l ls ih =>
    intro cd0 sl0
    simp only [List.foldl_cons]
    exact ih (cdStep cd0 l) (slStep sl0 l)

theorem cdFold_spec (lines : List String) :
    ∀ cd0 : Option Nat,
      lines.foldl cdStep cd0 =
        (match ((lines.map jsTrim).filterMap matchCrawlDelay).getLast? with
         | some n => some n
         | none => cd0) := by
  induction lines with
  | nil => intro cd0; rfl
  | cons l ls ih =>
    intro cd0
    simp only [List.foldl_cons, List.map_cons, List.filterMap_cons]
    rw [ih]
    cases hm : matchCrawlDelay (jsTrim l) with
    | none => simp only [cdStep, hm]
    | some n =>
      simp only [cdStep, hm]
      cases hrest : (ls.map jsTrim).filterMap matchCrawlDelay with
      | nil => rfl
      | cons r rs =>
        simp only [List.getLast?_cons_cons]
        cases hg : (r :: rs).getLast? with
        | none => exact absurd hg (by simp)
        | some m => rfl

theorem slFold_spec (lines : List String) :
    ∀ sl0 : List String,
      lines.foldl slStep sl0 = sl0 ++ (lines.map jsTrim).filterMap matchSitemap := by
  induction lines with
  | nil => intro sl0; simp
  | cons l ls ih =>
    intro sl0
    simp only [List.foldl_cons, List.map_cons, List.filterMap_cons]
    rw [ih]
    cases hs : matchSitemap (jsTrim l) with
    | none => simp only [slStep, hs]
    | some s => simp only [slStep, hs, List.append_assoc, List.singleton_append]

/-- C3 counterexample: with two numeric `crawl-delay:` lines (5 then 7),
    `fetchRobotsTxt` reports the value of the **last** matching line (7),
    not the first (5) — each match overwrites the previous. -/
theorem c3_counterexample :
    (fetchRobotsTxt "https://example.gov"
        (Except.ok (200, "crawl-delay: 5\ncrawl-delay: 7"))).crawl_delay = some 7
    ∧ matchCrawlDelay (jsTrim "crawl-delay: 5") = some 5
    ∧ some 7 ≠ (some 5 : Option Nat) := ⟨rfl, rfl, by decide⟩

/-- C3 (amended): on a 2xx `robots.txt` response, `crawl_delay` is the
    numeric value of the **last** line matching `crawl-delay:` (each match
    overwrites), and `sitemap_locations` collects every `sitemap:`
    declaration in order without deduplication (`null` when there is
    none). -/
theorem c3_robots_scan (base : String) (status : Nat) (body : String)
    (h2 : 200 ≤ status) (h3 : status < 300) :
    (fetchRobotsTxt base (Except.ok (status, body))).crawl_delay =
      (((jsSplit body '\n').map jsTrim).filterMap matchCrawlDelay).getLast?
    ∧ (fetchRobotsTxt base (Except.ok (status, body))).sitemap_locations =
      (if (((jsSplit body '\n').map jsTrim).filterMap matchSitemap).isEmpty then none
       else some (((jsSplit body '\n').map jsTrim).filterMap matchSitemap)) := by
  have hb : (decide (200 ≤ status) && decide (status < 300)) = true := by
    simp [h2, h3]
  have hrec :
      fetchRobotsTxt base (Except.ok (status, body)) =
        { detected := true, url := stripTrailingSlash base ++ "/robots.txt",
          status_code := status, filesize := some body.utf8ByteSize,
          crawl_delay := ((jsSplit body '\n').foldl robotsLineStep (none, [])).1,
          sitemap_locations :=
            if ((jsSplit body '\n').foldl robotsLineStep (none, [])).2.isEmpty then none
            else some ((jsSplit body '\n').foldl robotsLineStep (none, [])).2,
          error := none } := by
    simp only [fetchRobotsTxt, hb, Bool.not_true]
    rw [if_neg (by simp)]
  rw [hrec]
  rw [robotsFold_pair, cdFold_spec, slFold_spec]
  constructor
  · show (match ((((jsSplit body '\n').map jsTrim).filterMap matchCrawlDelay).getLast?) with
      | some n => some n
      | none => (none : Option Nat)) = _
    cases (((jsSplit body '\n').map jsTrim).filterMap matchCrawlDelay).getLast? <;> rfl
  · simp only [List.nil_append]

theorem c3_witness :
    (200 ≤ 200 ∧ (200 : Nat) < 300)
    ∧ (fetchRobotsTxt "https://x.gov"
        (Except.ok (200, "sitemap: https://x.gov/m.xml\ncrawl-delay: 3"))).crawl_delay =
      (((jsSplit "sitemap: https://x.gov/m.xml\ncrawl-delay: 3" '\n').map
          jsTrim).filterMap matchCrawlDelay).getLast? :=
  ⟨⟨by decide, by decide⟩,
   (c3_robots_scan "https://x.gov" 200 "sitemap: https://x.gov/m.xml\ncrawl-delay: 3"
     (by decide) (by decide)).1⟩

/-- C4 counterexample: a 2xx response whose trimmed body has exactly 100
    characters is **accepted** (the guard rejects only `> 100`), although
    100 characters is not "fewer than 100". -/
theorem c4_counterexample :
    checkHostingProvider (some (200, String.mk (List.replicate 100 'a'))) =
      some (String.mk (List.replicate 100 'a'))
    ∧ (jsTrim (String.mk (List.replicate 100 'a'))).length = 100 := ⟨rfl, rfl⟩

/-- C4 (amended): `checkHostingProvider` returns a non-null provider string
    exactly when the response is 2xx and the trimmed body is non-empty, at
    most 100 characters (101 or more rejected), and contains no `<`; in
    every other case, including a thrown fetch, it returns null. -/
theorem c4_wellknown_validity (status : Nat) (body : String) :
    (checkHostingProvider (some (status, body)) ≠ none ↔
      200 ≤ status ∧ status < 300 ∧ jsTrim body ≠ "" ∧
        (jsTrim body).length ≤ 100 ∧ strContains (jsTrim body) "<" = false)
    ∧ checkHostingProvider none = none := by
  refine ⟨?_, rfl⟩
  simp only [checkHostingProvider]
  split_ifs with h1 h2
  · constructor
    · intro habs
      exact absurd rfl habs
    · rintro ⟨hle, hlt, -⟩
      rw [Bool.not_eq_true'] at h1
      rw [decide_eq_true hle, decide_eq_true hlt] at h1
      simp at h1
  · constructor
    · intro habs
      exact absurd rfl habs
    · rintro ⟨-, -, hne, hlen, hcont⟩
      exfalso
      simp only [Bool.or_eq_true] at h2
      rcases h2 with (h2 | h2) | h2
      · exact hne (of_decide_eq_true h2)
      · have := of_decide_eq_true h2
        omega
      · rw [hcont] at h2
        exact Bool.noConfusion h2
  · constructor
    · intro hsome
      have h1' : (decide (200 ≤ status) && decide (status < 300)) = true := by
        rcases Bool.eq_false_or_eq_true (decide (200 ≤ status) && decide (status < 300))
          with h | h
        · exact h
        · rw [h] at h1
          simp at h1
      obtain ⟨ha, hb⟩ := Bool.and_eq_true_iff.mp h1'
      have h2a : jsTrim body ≠ "" := fun habs => h2 (by rw [decide_eq_true habs]; simp)
      have h2b : (jsTrim body).length ≤ 100 := by
        by_contra hgt
        exact h2 (by rw [decide_eq_true (by omega : (jsTrim body).length > 100)]; simp)
      have h2c : strContains (jsTrim body) "<" = false := by
        rcases Bool.eq_false_or_eq_true (strContains (jsTrim body) "<") with h | h
        · exact absurd (by rw [h, Bool.or_true]) h2
        · exact h
      exact ⟨of_decide_eq_true ha, of_decide_eq_true hb, h2a, h2b, h2c⟩
    · intro hyps
      exact fun habs => Option.noConfusion habs

theorem computeDiff_single_json (key s1 s2 : String) (v : Jval)
    (hk : key ∈ JSON_FIELDS) (h1 : jsonParse s1 = some v)
    (h2 : jsonParse s2 = some v) :
    computeDiff [(key, Jval.jstr s1)] [(key, Jval.jstr s2)] = ⟨[], 1⟩ := by
  have hskip : SKIP_FIELDS.contains key = false := by
    fin_cases hk <;> decide
  have hcont : JSON_FIELDS.contains key = true := by
    fin_cases hk <;> decide
  unfold computeDiff
  have hkeys : dedupFrom [] ([(key, Jval.jstr s1)].map Prod.fst ++
      [(key, Jval.jstr s2)].map Prod.fst) = [key] := by
    simp [dedupFrom]
  rw [hkeys]
  simp only [List.foldl_cons, List.foldl_nil]
  unfold diffStep
  rw [hskip]
  simp only [Bool.false_eq_true, if_false]
  have hl1 : List.lookup key [(key, Jval.jstr s1)] = some (Jval.jstr s1) := by
    simp [List.lookup]
  have hl2 : List.lookup key [(key, Jval.jstr s2)] = some (Jval.jstr s2) := by
    simp [List.lookup]
  rw [hl1, hl2]
  unfold parseVal
  rw [hcont]
  simp only [if_true]
  rw [h1, h2]
  simp

/-- C1 counterexample: the field `tags` is **not** in the code's designated
    `JSON_FIELDS` set, so the two JSON texts differing only in whitespace
    are compared as raw strings and the diff **does** report a change. -/
theorem c1_counterexample :
    (computeDiff [("tags", Jval.jstr "[\"x\",\"y\"]")]
        [("tags", Jval.jstr "[\"x\", \"y\"]")]).changed =
      [⟨"tags", some (Jval.jstr "[\"x\",\"y\"]"),
        some (Jval.jstr "[\"x\", \"y\"]")⟩]
    ∧ ("tags" ∈ JSON_FIELDS ↔ False) := ⟨rfl, by decide⟩

/-- C1 (amended): `computeDiff` on the non-JSON field `a` comparing the
    string `"1"` with the number `1` reports a change (type-sensitive raw
    compare); on a field in the designated `JSON_FIELDS` set (such as
    `cookie_domains`) both sides are parsed before structural comparison,
    so two encodings of the same JSON value — e.g. differing only in
    whitespace — never register as a change.  (`tags` is not designated, so
    its whitespace variants do register; see the counterexample.) -/
theorem c1_diff_json_roundtrip :
    (computeDiff [("a", Jval.jstr "1")] [("a", Jval.jnum 1)]).changed =
      [⟨"a", some (Jval.jstr "1"), some (Jval.jnum 1)⟩]
    ∧ (computeDiff [("cookie_domains", Jval.jstr "[\"x\",\"y\"]")]
        [("cookie_domains", Jval.jstr "[\"x\", \"y\"]")]).changed = []
    ∧ ∀ (key s1 s2 : String) (v : Jval), key ∈ JSON_FIELDS →
        jsonParse s1 = some v → jsonParse s2 = some v →
        (computeDiff [(key, Jval.jstr s1)] [(key, Jval.jstr s2)]).changed = [] :=
  ⟨rfl, rfl, fun key s1 s2 v hk h1 h2 => by
    rw [computeDiff_single_json key s1 s2 v hk h1 h2]⟩

theorem c1_witness :
    ("cookie_domains" ∈ JSON_FIELDS)
    ∧ jsonParse "[\"x\",\"y\"]" = some (Jval.jarr [Jval.jstr "x", Jval.jstr "y"])
    ∧ jsonParse "[\"x\", \"y\"]" = some (Jval.jarr [Jval.jstr "x", Jval.jstr "y"])
    ∧ (computeDiff [("cookie_domains", Jval.jstr "[\"x\",\"y\"]")]
        [("cookie_domains", Jval.jstr "[\"x\", \"y\"]")]).changed = [] :=
  ⟨by decide, rfl, rfl,
   c1_diff_json_roundtrip.2.2 "cookie_domains" _ _
     (Jval.jarr [Jval.jstr "x", Jval.jstr "y"]) (by decide) rfl rfl⟩

/-- C9: `pLimit` spawns exactly `min(N, len(items))` workers over one
    shared queue; an item is dequeued only in a step where the queue is
    non-empty and the abort predicate is false (the guard plus `shift` is
    one atomic step, checked only at a worker's loop head); a busy worker
    is never cancelled mid-flight (its only transition is completing back
    to the loop head); and once the abort predicate holds for every
    remaining step the queue never shrinks again — no item beyond the
    in-flight tasks is dequeued. -/
theorem c9_pool_limiter (τ : Type) (items : List τ) (concurrency : Nat) :
    (pLimitInit items concurrency).workers.length = min concurrency items.length
    ∧ (∀ (abort : Bool) (σ σ' : PoolState τ), PoolStep abort σ σ' →
        (σ'.queue ≠ σ.queue → abort = false ∧ ∃ x, σ.queue = x :: σ'.queue)
        ∧ ∀ (i : Nat) (x : τ), σ.workers[i]? = some (WStatus.busy x) →
            σ'.workers[i]? = some (WStatus.busy x) ∨ σ'.workers[i]? = some WStatus.idle)
    ∧ ∀ (aborts : List Bool) (σ σ' : PoolState τ),
        (∀ a ∈ aborts, a = true) → PoolSteps aborts σ σ' → σ'.queue = σ.queue := by
  refine ⟨by simp [pLimitInit], ?_, ?_⟩
  · intro abort σ σ' hstep
    cases hstep with
    | dequeue q ws i x rest hab hws hq =>
      constructor
      · intro _
        exact ⟨hab, x, by rw [hq]⟩
      · intro j y hj
        by_cases hij : i = j
        · subst hij
          rw [hws] at hj
          exact absurd (Option.some.inj hj) (by intro h; cases h)
        · left
          simpa using (List.getElem?_set_ne hij (a := WStatus.busy x) (l := ws)) ▸ hj
    | finish q ws i x hws =>
      constructor
      · intro hq
        exact absurd rfl hq
      · intro j y hj
        by_cases hij : i = j
        · subst hij
          right
          have hlt : i < ws.length := by
            by_contra hge
            rw [List.getElem?_eq_none (Nat.le_of_not_lt hge)] at hws
            exact Option.noConfusion hws
          simp [List.getElem?_set_self hlt]
        · left
          simpa using (List.getElem?_set_ne hij (a := WStatus.idle) (l := ws)) ▸ hj
    | exit q ws i hws hstop =>
      constructor
      · intro hq
        exact absurd rfl hq
      · intro j y hj
        by_cases hij : i = j
        · subst hij
          rw [hws] at hj
          exact absurd (Option.some.inj hj) (by intro h; cases h)
        · left
          simpa using (List.getElem?_set_ne hij (a := WStatus.done) (l := ws)) ▸ hj
  · intro aborts σ σ' hall hsteps
    induction hsteps with
    | nil => rfl
    | cons hstep hrest ih =>
      rename_i a as σ0 σ1 σ2
      have ha : a = true := hall a (List.mem_cons_self _ _)
      have hq1 : σ1.queue = σ0.queue := by
        cases hstep with
        | dequeue q ws i x rest hab hws hq =>
          rw [ha] at hab
          exact Bool.noConfusion hab
        | finish q ws i x hws => rfl
        | exit q ws i hws hstop => rfl
      rw [ih (fun b hb => hall b (List.mem_cons_of_mem _ hb)), hq1]

theorem c9_witness :
    (pLimitInit [1, 2, 3, 4] 3).workers.length = min 3 [1, 2, 3, 4].length
    ∧ ((⟨[5], [WStatus.done]⟩ : PoolState Nat).queue =
        (⟨[5], [WStatus.idle]⟩ : PoolState Nat).queue) :=
  ⟨(c9_pool_limiter Nat [1, 2, 3, 4] 3).1,
   (c9_pool_limiter Nat [] 0).2.2 [true] ⟨[5], [WStatus.idle]⟩ ⟨[5], [WStatus.done]⟩
     (by simp)
     (PoolSteps.cons (PoolStep.exit [5] [WStatus.idle] 0 rfl (Or.inr rfl))
       (PoolSteps.nil _))⟩

end Scanner
